import Mathlib

/-!
Shallow embedding of the metrics-computation core of `src/app.py`
(a gaming-analytics dashboard): device segmentation, DAU/WAU/MAU
activity metrics, funnel counts and GGR-by-country, together with
proofs of the specified properties.

Modelling conventions:
* pandas DataFrames become Lists of records; `set(...)`/`nunique()`
  become `List.toFinset` and `Finset.card`.
* Calendar dates are `Int` day numbers, so `d - pd.Timedelta(days=6)`
  is `d - 6`.
* `pd.merge(..., how="left")` pairs each left row with every matching
  right row, or with `none` when there is no match.
* `groupby` sorts its keys ascending and (pandas default
  `dropna=True`) silently drops null keys.
* The external `pycountry` lookup is a parameter
  `lookup : String → Option String`; `none` models both a failed
  lookup and an exception raised by it (the bare `except:` in
  `country_name` catches everything).
-/

namespace App

/-- One row of `bets.csv`: {user_id, bet_time, bet_amount}. -/
structure Bet where
  user_id : Nat
  bet_time : Int
  bet_amount : Int
deriving DecidableEq

/-- One row of `sessions.csv`; `date` is the calendar date derived from
`start_time` (`sessions["date"] = sessions["start_time"].dt.date`). -/
structure Session where
  user_id : Nat
  device_type : String
  start_time : Int
  end_time : Int
  date : Int
deriving DecidableEq

/-- One row of `transactions.csv`. -/
structure Transaction where
  user_id : Nat
  transaction_type : String
  timestamp : Int
  amount : Int
deriving DecidableEq

/-- One row of `users.csv`. -/
structure User where
  user_id : Nat
  country : String
  registration_date : Int
deriving DecidableEq

/-- The four in-memory tables loaded at startup. -/
structure Tables where
  bets : List Bet
  sessions : List Session
  transactions : List Transaction
  users : List User
deriving DecidableEq

/-- `get_device_users(device)` from `app.py`: the set of user ids for a
device selector.  The source's recursive calls
`get_device_users("mobile")`/`get_device_users("desktop")` in the
`"all"` branch are unfolded one step. -/
def get_device_users (t : Tables) (device : String) : Finset Nat :=
  if device = "mobile" then
    ((t.sessions.filter (fun s => s.device_type = "mobile")).map Session.user_id).toFinset
  else if device = "desktop" then
    ((t.sessions.filter (fun s => s.device_type = "desktop")).map Session.user_id).toFinset
  else if device = "all" then
    ((t.sessions.filter (fun s => s.device_type = "mobile")).map Session.user_id).toFinset ∪
      ((t.sessions.filter (fun s => s.device_type = "desktop")).map Session.user_id).toFinset
  else ∅

/-- The session filter at the top of `calculate_metrics`: for `"all"`
it keeps sessions whose user is in the `"all"` segment, otherwise it
compares the raw `device_type` column with `device`. -/
def filteredSessions (t : Tables) (device : String) : List Session :=
  if device = "all" then
    t.sessions.filter (fun s => s.user_id ∈ get_device_users t "all")
  else
    t.sessions.filter (fun s => s.device_type = device)

/-- `["user_id"].nunique()`: the number of distinct user ids in a list
of sessions. -/
def distinctUsers (l : List Session) : Nat :=
  (l.map Session.user_id).toFinset.card

/-- One row of the frame returned by `calculate_metrics`. -/
structure MetricsRow where
  date : Int
  DAU : Nat
  WAU : Nat
  MAU : Nat
deriving DecidableEq

/-- `calculate_metrics(device)` from `app.py`: one row per distinct
date of the filtered sessions, ascending (`sorted(... .unique())`,
which also matches the `groupby("date")` key order used for DAU), with
distinct-user counts for the day, the trailing 7-day window and the
trailing 30-day window. -/
def calculate_metrics (t : Tables) (device : String) : List MetricsRow :=
  let fs := filteredSessions t device
  let dates := ((fs.map Session.date).dedup).insertionSort (· ≤ ·)
  dates.map (fun d =>
    { date := d
      DAU := distinctUsers (fs.filter (fun s => s.date = d))
      WAU := distinctUsers (fs.filter (fun s => d - 6 ≤ s.date ∧ s.date ≤ d))
      MAU := distinctUsers (fs.filter (fun s => d - 29 ≤ s.date ∧ s.date ≤ d)) })

/-- First funnel stage: `registrations_users = get_device_users(device)`. -/
def registrations_users (t : Tables) (device : String) : Finset Nat :=
  get_device_users t device

/-- Second funnel stage: distinct users with a `"deposit"` transaction
who are in the segment. -/
def deposit_users (t : Tables) (device : String) : Finset Nat :=
  ((t.transactions.filter (fun tr =>
      tr.transaction_type = "deposit" ∧ tr.user_id ∈ registrations_users t device)).map
    Transaction.user_id).toFinset

/-- Third funnel stage: distinct users with a bet who are in the
deposit set. -/
def bet_users (t : Tables) (device : String) : Finset Nat :=
  ((t.bets.filter (fun b => b.user_id ∈ deposit_users t device)).map Bet.user_id).toFinset

/-- `calculate_funnel(device)` from `app.py`: the three stage sizes. -/
def calculate_funnel (t : Tables) (device : String) : Nat × Nat × Nat :=
  ((registrations_users t device).card, (deposit_users t device).card,
    (bet_users t device).card)

/-- The inner `country_name(code)` of `ggr_by_country`: resolve the
code via the lookup, and on failure (or any raised error, both
modelled by `none`) return the raw code. -/
def country_name (lookup : String → Option String) (code : String) : String :=
  (lookup code).getD code

/-- One output row of `pd.merge(filtered_bets, users, on="user_id",
how="left")`: a bet paired with each matching user, or with `none`
when the bet's `user_id` is absent from `users`. -/
def joinRow (us : List User) (b : Bet) : List (Bet × Option User) :=
  let ms := us.filter (fun u => u.user_id = b.user_id)
  if ms.isEmpty then [(b, none)] else ms.map (fun u => (b, some u))

/-- The whole left merge of a bet list with the users table. -/
def leftJoin (bs : List Bet) (us : List User) : List (Bet × Option User) :=
  bs.flatMap (joinRow us)

/-- The `country` column of a merged row: `none` when the left join
found no user. -/
def rowCountry (p : Bet × Option User) : Option String :=
  p.2.map User.country

/-- The group keys of `groupby("country")` on the merged rows: the
distinct non-null country codes, sorted ascending (pandas drops null
keys by default and sorts group keys). -/
def groupCodes (rows : List (Bet × Option User)) : List String :=
  ((rows.filterMap rowCountry).dedup).insertionSort (· ≤ ·)

/-- `["bet_amount"].sum()` over the group of a given country code. -/
def groupSum (rows : List (Bet × Option User)) (c : String) : Int :=
  ((rows.filter (fun p => rowCountry p = some c)).map (fun p => p.1.bet_amount)).sum

/-- The grouped frame `ggr_country` before country-name resolution:
per non-null country code, the summed bet amount. -/
def ggr_grouped (t : Tables) (device : String) : List (String × Int) :=
  let dev_users := if device = "all" then get_device_users t "all" else get_device_users t device
  let filtered_bets := t.bets.filter (fun b => b.user_id ∈ dev_users)
  let bets_users := leftJoin filtered_bets t.users
  (groupCodes bets_users).map (fun c => (c, groupSum bets_users c))

/-- `ggr_by_country(device)` from `app.py`: segment the bets, left-join
to `users`, group by country summing `bet_amount`, then map each code
through `country_name`. -/
def ggr_by_country (t : Tables) (lookup : String → Option String) (device : String) :
    List (String × Int) :=
  (ggr_grouped t device).map (fun p => (country_name lookup p.1, p.2))

/-- The single uniform computation both branches of `ggr_by_country`
perform: segment via `get_device_users device` unconditionally (no
`device == "all"` case split), left-join, group, sum, resolve names. -/
def ggr_uniform (t : Tables) (lookup : String → Option String) (device : String) :
    List (String × Int) :=
  let dev_users := get_device_users t device
  let filtered_bets := t.bets.filter (fun b => b.user_id ∈ dev_users)
  let bets_users := leftJoin filtered_bets t.users
  ((groupCodes bets_users).map (fun c => (c, groupSum bets_users c))).map
    (fun p => (country_name lookup p.1, p.2))

/-- Whether a bet's `user_id` has a row in the users table (so the
left join will find a match for it). -/
def present (us : List User) (b : Bet) : Bool :=
  us.any (fun u => u.user_id = b.user_id)

/-! Concrete table states used to instantiate the theorems below. -/

/-- A small table state: user 1 has a mobile session, a deposit and a
bet, but no row in `users`; user 2 has a desktop session and a `users`
row with country `"UA"`. -/
def Tex : Tables :=
  { bets := [⟨1, 5, 100⟩]
    sessions := [⟨1, "mobile", 0, 1, 0⟩, ⟨2, "desktop", 0, 1, 0⟩]
    transactions := [⟨1, "deposit", 9, 50⟩]
    users := [⟨2, "UA", 0⟩] }

/-- `Tex` with all timestamps and amounts changed but the sessions
table, the `(user_id, transaction_type)` transaction columns and the
`user_id` bet column untouched. -/
def Tex9 : Tables :=
  { bets := [⟨1, 77, 3⟩]
    sessions := [⟨1, "mobile", 0, 1, 0⟩, ⟨2, "desktop", 0, 1, 0⟩]
    transactions := [⟨1, "deposit", 2, 7⟩]
    users := [⟨2, "UA", 0⟩] }

/-- A table state where the only bettor, user 2, does have a `users`
row (country `"UA"`) and a desktop session. -/
def Tex2 : Tables :=
  { bets := [⟨2, 5, 70⟩]
    sessions := [⟨2, "desktop", 0, 1, 0⟩]
    transactions := [⟨2, "deposit", 3, 40⟩]
    users := [⟨2, "UA", 0⟩] }

/-- A country lookup that always fails (every code is unresolvable). -/
def lkNone : String → Option String := fun _ => none

/-- A country lookup resolving exactly the code `"UA"`. -/
def lkUA : String → Option String := fun c => if c = "UA" then some "Ukraine" else none

/-! Helper lemmas shared by several claims. -/

/-- Distinct user ids of a filtered session list grow when the filter
weakens. -/
lemma usersFinset_filter_subset (l : List Session) (p q : Session → Bool)
    (h : ∀ s, p s = true → q s = true) :
    ((l.filter p).map Session.user_id).toFinset ⊆ ((l.filter q).map Session.user_id).toFinset := by
  intro x hx
  simp only [List.mem_toFinset, List.mem_map, List.mem_filter] at hx ⊢
  obtain ⟨s, ⟨hs, hps⟩, rfl⟩ := hx
  exact ⟨s, ⟨hs, h s hps⟩, rfl⟩

/-! The claims. -/

/-- Claim C3: for every device value, `calculate_funnel` returns three
counts that are monotonically non-increasing left to right —
`registrations_count ≥ deposit_count ≥ bet_count` — because the
deposit cohort is a subset of the segment and the bet cohort a subset
of the deposit cohort. -/
theorem funnel_monotone (t : Tables) (device : String) :
    (calculate_funnel t device).2.2 ≤ (calculate_funnel t device).2.1 ∧
    (calculate_funnel t device).2.1 ≤ (calculate_funnel t device).1 := by
  constructor
  · apply Finset.card_le_card
    intro x hx
    simp only [bet_users, List.mem_toFinset, List.mem_map, List.mem_filter,
      decide_eq_true_eq] at hx
    obtain ⟨b, ⟨_, hmem⟩, rfl⟩ := hx
    exact hmem
  · apply Finset.card_le_card
    intro x hx
    simp only [deposit_users, List.mem_toFinset, List.mem_map, List.mem_filter,
      decide_eq_true_eq] at hx
    obtain ⟨tr, ⟨_, _, hmem⟩, rfl⟩ := hx
    exact hmem

/-- Claim C5: `get_device_users "all"` equals the union of the mobile
and desktop segments, is a superset of each, and a user with sessions
on both platforms is counted exactly once (membership in the union is
plain disjunction over a set, with no double counting). -/
theorem all_users_union (t : Tables) :
    get_device_users t "all" = get_device_users t "mobile" ∪ get_device_users t "desktop" ∧
    get_device_users t "mobile" ⊆ get_device_users t "all" ∧
    get_device_users t "desktop" ⊆ get_device_users t "all" ∧
    (∀ u, u ∈ get_device_users t "all" ↔
      u ∈ get_device_users t "mobile" ∨ u ∈ get_device_users t "desktop") := by
  have h : get_device_users t "all" =
      get_device_users t "mobile" ∪ get_device_users t "desktop" := by
    simp [get_device_users]
  refine ⟨h, ?_, ?_, ?_⟩
  · rw [h]; exact Finset.subset_union_left
  · rw [h]; exact Finset.subset_union_right
  · intro u; rw [h]; exact Finset.mem_union

/-- Claim C6: for `device ∈ {"mobile", "desktop"}` the distinct user
ids of the sessions selected by `calculate_metrics`'s raw
`device_type == device` filter equal `get_device_users device`, so the
raw-field path and the segmentation-helper path agree on the user set
for single-device values. -/
theorem raw_filter_agrees_with_segment (t : Tables) (device : String)
    (h : device = "mobile" ∨ device = "desktop") :
    ((filteredSessions t device).map Session.user_id).toFinset = get_device_users t device := by
  rcases h with rfl | rfl <;> simp [filteredSessions, get_device_users]

theorem raw_filter_agrees_with_segment_witness :
    ("mobile" = "mobile" ∨ "mobile" = "desktop") ∧
    ((filteredSessions Tex "mobile").map Session.user_id).toFinset =
      get_device_users Tex "mobile" :=
  ⟨Or.inl rfl, raw_filter_agrees_with_segment Tex "mobile" (Or.inl rfl)⟩

/-- Claim C10: the two branches of `ggr_by_country` (`device == "all"`
versus any other value) perform the identical computation, so for
every device value `ggr_by_country device` equals the single uniform
definition that filters bets to `get_device_users device`, left-joins
`users`, groups by country and sums `bet_amount`. -/
theorem ggr_branches_identical (t : Tables) (lookup : String → Option String)
    (device : String) :
    ggr_by_country t lookup device = ggr_uniform t lookup device := by
  unfold ggr_by_country ggr_uniform ggr_grouped
  by_cases h : device = "all"
  · subst h; simp
  · simp [h]

/-- Claim C2: for every device and every date present in the filtered
session set, the row `calculate_metrics` returns for that date has
`WAU` equal to the number of distinct user ids among filtered sessions
with date in the closed interval `[d − 6, d]` and `MAU` equal to the
number of distinct user ids among filtered sessions with date in the
closed interval `[d − 29, d]`, both windows inclusive of `d`. -/
theorem wau_mau_windows (t : Tables) (device : String) (row : MetricsRow)
    (hrow : row ∈ calculate_metrics t device) :
    row.WAU = distinctUsers ((filteredSessions t device).filter
      (fun s => row.date - 6 ≤ s.date ∧ s.date ≤ row.date)) ∧
    row.MAU = distinctUsers ((filteredSessions t device).filter
      (fun s => row.date - 29 ≤ s.date ∧ s.date ≤ row.date)) := by
  simp only [calculate_metrics, List.mem_map] at hrow
  obtain ⟨d, _, rfl⟩ := hrow
  exact ⟨rfl, rfl⟩

theorem wau_mau_windows_witness :
    ((⟨0, 1, 1, 1⟩ : MetricsRow) ∈ calculate_metrics Tex "mobile") ∧
    ((⟨0, 1, 1, 1⟩ : MetricsRow).WAU = distinctUsers ((filteredSessions Tex "mobile").filter
      (fun s => (⟨0, 1, 1, 1⟩ : MetricsRow).date - 6 ≤ s.date ∧
        s.date ≤ (⟨0, 1, 1, 1⟩ : MetricsRow).date)) ∧
    (⟨0, 1, 1, 1⟩ : MetricsRow).MAU = distinctUsers ((filteredSessions Tex "mobile").filter
      (fun s => (⟨0, 1, 1, 1⟩ : MetricsRow).date - 29 ≤ s.date ∧
        s.date ≤ (⟨0, 1, 1, 1⟩ : MetricsRow).date))) :=
  ⟨by decide, wau_mau_windows Tex "mobile" ⟨0, 1, 1, 1⟩ (by decide)⟩

/-- Claim C4: every row returned by `calculate_metrics` satisfies
`DAU ≤ WAU ≤ MAU` — the one-day, 7-day and 30-day windows anchored at
the row's date are nested. -/
theorem dau_le_wau_le_mau (t : Tables) (device : String) (row : MetricsRow)
    (hrow : row ∈ calculate_metrics t device) :
    row.DAU ≤ row.WAU ∧ row.WAU ≤ row.MAU := by
  simp only [calculate_metrics, List.mem_map] at hrow
  obtain ⟨d, _, rfl⟩ := hrow
  constructor
  · apply Finset.card_le_card
    apply usersFinset_filter_subset
    intro s hs
    simp only [decide_eq_true_eq] at hs ⊢
    omega
  · apply Finset.card_le_card
    apply usersFinset_filter_subset
    intro s hs
    simp only [decide_eq_true_eq] at hs ⊢
    omega

theorem dau_le_wau_le_mau_witness :
    ((⟨0, 1, 1, 1⟩ : MetricsRow) ∈ calculate_metrics Tex "mobile") ∧
    ((⟨0, 1, 1, 1⟩ : MetricsRow).DAU ≤ (⟨0, 1, 1, 1⟩ : MetricsRow).WAU ∧
      (⟨0, 1, 1, 1⟩ : MetricsRow).WAU ≤ (⟨0, 1, 1, 1⟩ : MetricsRow).MAU) :=
  ⟨by decide, dau_le_wau_le_mau Tex "mobile" ⟨0, 1, 1, 1⟩ (by decide)⟩

/-- Claim C7: for a device value outside `{"mobile", "desktop",
"all"}` (e.g. `"tablet"`), `get_device_users` returns the empty set
without error, `calculate_metrics` returns a table with zero rows, and
`calculate_funnel` returns `(0, 0, 0)`.  The zero-row part uses the
data-model invariant that every session's `device_type` is `"mobile"`
or `"desktop"`. -/
theorem unknown_device_degrades (t : Tables) (device : String)
    (h1 : device ≠ "mobile") (h2 : device ≠ "desktop") (h3 : device ≠ "all")
    (henum : ∀ s ∈ t.sessions, s.device_type = "mobile" ∨ s.device_type = "desktop") :
    get_device_users t device = ∅ ∧
    calculate_metrics t device = [] ∧
    calculate_funnel t device = (0, 0, 0) := by
  have hge : get_device_users t device = ∅ := by
    simp [get_device_users, h1, h2, h3]
  have hfs : filteredSessions t device = [] := by
    simp only [filteredSessions, if_neg h3]
    rw [List.filter_eq_nil_iff]
    intro s hs
    rcases henum s hs with h | h
    · simp [h]; exact fun he => h1 he.symm
    · simp [h]; exact fun he => h2 he.symm
  have hdep : deposit_users t device = ∅ := by
    have hnil : t.transactions.filter (fun tr =>
        tr.transaction_type = "deposit" ∧ tr.user_id ∈ registrations_users t device) = [] := by
      rw [List.filter_eq_nil_iff]
      intro tr _
      simp [registrations_users, hge]
    unfold deposit_users
    rw [hnil]
    rfl
  have hbet : bet_users t device = ∅ := by
    have hnil : t.bets.filter (fun b => b.user_id ∈ deposit_users t device) = [] := by
      rw [List.filter_eq_nil_iff]
      intro b _
      simp [hdep]
    unfold bet_users
    rw [hnil]
    rfl
  refine ⟨hge, ?_, ?_⟩
  · simp [calculate_metrics, hfs]
  · simp [calculate_funnel, registrations_users, hge, hdep, hbet]

theorem unknown_device_degrades_witness :
    ("tablet" ≠ "mobile" ∧ "tablet" ≠ "desktop" ∧ "tablet" ≠ "all" ∧
      (∀ s ∈ Tex.sessions, s.device_type = "mobile" ∨ s.device_type = "desktop")) ∧
    (get_device_users Tex "tablet" = ∅ ∧
      calculate_metrics Tex "tablet" = [] ∧
      calculate_funnel Tex "tablet" = (0, 0, 0)) :=
  ⟨⟨by decide, by decide, by decide, by decide⟩,
    unknown_device_degrades Tex "tablet" (by decide) (by decide) (by decide) (by decide)⟩

/-- Claim C8: every row of `ggr_by_country` carries a country label
obtained by passing the grouped country code through `country_name`:
the code is resolved via the lookup, a failed (or raising, modelled as
`none`) lookup yields the raw code unchanged, and a successful lookup
yields the resolved name — resolution is total, so no lookup failure
ever propagates out of `ggr_by_country`. -/
theorem country_resolution_total (t : Tables) (lookup : String → Option String)
    (device : String) (row : String × Int)
    (hrow : row ∈ ggr_by_country t lookup device) :
    ∃ code, (code, row.2) ∈ ggr_grouped t device ∧
      row.1 = country_name lookup code ∧
      (lookup code = none → row.1 = code) ∧
      (∀ nm, lookup code = some nm → row.1 = nm) := by
  simp only [ggr_by_country, List.mem_map] at hrow
  obtain ⟨p, hp, rfl⟩ := hrow
  refine ⟨p.1, by simpa using hp, rfl, ?_, ?_⟩
  · intro hnone
    simp [country_name, hnone]
  · intro nm hsome
    simp [country_name, hsome]

theorem country_resolution_total_witness :
    (("Ukraine", (70 : Int)) ∈ ggr_by_country Tex2 lkUA "desktop") ∧
    (∃ code, (code, ("Ukraine", (70 : Int)).2) ∈ ggr_grouped Tex2 "desktop" ∧
      ("Ukraine", (70 : Int)).1 = country_name lkUA code ∧
      (lkUA code = none → ("Ukraine", (70 : Int)).1 = code) ∧
      (∀ nm, lkUA code = some nm → ("Ukraine", (70 : Int)).1 = nm)) :=
  ⟨by decide, country_resolution_total Tex2 lkUA "desktop" ("Ukraine", 70) (by decide)⟩

/-- The `(user_id, transaction_type)` projection of a transaction row:
the only transaction columns `calculate_funnel` reads. -/
def transProj (tr : Transaction) : Nat × String :=
  (tr.user_id, tr.transaction_type)

/-- `get_device_users` reads only the sessions table. -/
lemma get_device_users_congr (t1 t2 : Tables) (h : t1.sessions = t2.sessions)
    (device : String) :
    get_device_users t1 device = get_device_users t2 device := by
  simp only [get_device_users, h]

/-- The deposit-stage user ids factor through the
`(user_id, transaction_type)` projection. -/
lemma depositIds_proj (trs : List Transaction) (R : Finset Nat) :
    (trs.filter (fun tr => tr.transaction_type = "deposit" ∧ tr.user_id ∈ R)).map
        Transaction.user_id
      = ((trs.map transProj).filter (fun p => p.2 = "deposit" ∧ p.1 ∈ R)).map Prod.fst := by
  rw [List.filter_map, List.map_map]
  rfl

/-- The bet-stage user ids factor through the `user_id` projection. -/
lemma betIds_proj (bs : List Bet) (D : Finset Nat) :
    (bs.filter (fun b => b.user_id ∈ D)).map Bet.user_id
      = (bs.map Bet.user_id).filter (fun u => u ∈ D) := by
  rw [List.filter_map]
  rfl

/-- Claim C9: `calculate_funnel` depends only on the sessions table,
the `(user_id, transaction_type)` columns of transactions and the
`user_id` column of bets — two table states agreeing on those (but
with arbitrary timestamps and amounts) give equal funnels.  In
particular a segment user with any `"deposit"` transaction and any bet
is counted in `bet_users` regardless of the events' timestamps: the
funnel imposes no temporal order between deposit and bet. -/
theorem funnel_column_dependence (t1 t2 : Tables) (device : String)
    (hs : t1.sessions = t2.sessions)
    (ht : t1.transactions.map transProj = t2.transactions.map transProj)
    (hb : t1.bets.map Bet.user_id = t2.bets.map Bet.user_id) :
    calculate_funnel t1 device = calculate_funnel t2 device ∧
    (∀ u, u ∈ registrations_users t1 device →
      (∃ tr ∈ t1.transactions, tr.transaction_type = "deposit" ∧ tr.user_id = u) →
      (∃ b ∈ t1.bets, b.user_id = u) →
      u ∈ bet_users t1 device) := by
  have hreg : registrations_users t1 device = registrations_users t2 device :=
    get_device_users_congr t1 t2 hs device
  have hdep : deposit_users t1 device = deposit_users t2 device := by
    unfold deposit_users
    rw [depositIds_proj, depositIds_proj]
    simp only [hreg, ht]
  have hbet : bet_users t1 device = bet_users t2 device := by
    unfold bet_users
    rw [betIds_proj, betIds_proj]
    simp only [hdep, hb]
  constructor
  · simp only [calculate_funnel, hreg, hdep, hbet]
  · rintro u hu ⟨tr, htr, htype, huid⟩ ⟨b, hbmem, hbid⟩
    have hdu : u ∈ deposit_users t1 device := by
      simp only [deposit_users, List.mem_toFinset, List.mem_map]
      refine ⟨tr, ?_, huid⟩
      simp only [List.mem_filter, decide_eq_true_eq]
      exact ⟨htr, htype, by rw [huid]; exact hu⟩
    simp only [bet_users, List.mem_toFinset, List.mem_map]
    refine ⟨b, ?_, hbid⟩
    simp only [List.mem_filter, decide_eq_true_eq]
    exact ⟨hbmem, by rw [hbid]; exact hdu⟩

/-- A bet whose user is absent from `users` joins to the single row
`(b, none)`: its country is null. -/
lemma joinRow_absent (us : List User) (b : Bet) (h : present us b = false) :
    joinRow us b = [(b, none)] := by
  have hnil : us.filter (fun u => u.user_id = b.user_id) = [] := by
    rw [List.filter_eq_nil_iff]
    intro u hu hc
    have : us.any (fun u => u.user_id = b.user_id) = true :=
      List.any_eq_true.mpr ⟨u, hu, by simpa using hc⟩
    rw [present] at h
    rw [h] at this
    exact Bool.false_ne_true this
  unfold joinRow
  rw [hnil]
  rfl

/-- `leftJoin` distributes over cons. -/
lemma leftJoin_cons (us : List User) (b : Bet) (l : List Bet) :
    leftJoin (b :: l) us = joinRow us b ++ leftJoin l us := by
  simp [leftJoin]

/-- The null-country join row of an absent-user bet survives no
country group: its code list contribution is empty. -/
lemma filterMap_leftJoin_drop (us : List User) (bs : List Bet) :
    (leftJoin (bs.filter (present us)) us).filterMap rowCountry
      = (leftJoin bs us).filterMap rowCountry := by
  induction bs with
  | nil => rfl
  | cons b rest ih =>
      cases hpb : present us b
      · have hfil : (b :: rest).filter (present us) = rest.filter (present us) := by
          simp [List.filter_cons, hpb]
        rw [hfil, ih, leftJoin_cons, List.filterMap_append, joinRow_absent us b hpb]
        simp [rowCountry]
      · have hfil : (b :: rest).filter (present us) = b :: rest.filter (present us) := by
          simp [List.filter_cons, hpb]
        rw [hfil, leftJoin_cons, leftJoin_cons, List.filterMap_append,
          List.filterMap_append, ih]

/-- `groupSum` distributes over append. -/
lemma groupSum_append (r1 r2 : List (Bet × Option User)) (c : String) :
    groupSum (r1 ++ r2) c = groupSum r1 c + groupSum r2 c := by
  unfold groupSum
  rw [List.filter_append, List.map_append, List.sum_append]

/-- A null-country row contributes nothing to any country group sum. -/
lemma groupSum_none (b : Bet) (c : String) : groupSum [(b, none)] c = 0 := by
  simp [groupSum, rowCountry]

/-- Group sums are unchanged when absent-user bets are removed before
the join. -/
lemma groupSum_leftJoin_drop (us : List User) (bs : List Bet) (c : String) :
    groupSum (leftJoin (bs.filter (present us)) us) c = groupSum (leftJoin bs us) c := by
  induction bs with
  | nil => rfl
  | cons b rest ih =>
      cases hpb : present us b
      · have hfil : (b :: rest).filter (present us) = rest.filter (present us) := by
          simp [List.filter_cons, hpb]
        rw [hfil, ih, leftJoin_cons, groupSum_append, joinRow_absent us b hpb,
          groupSum_none]
        omega
      · have hfil : (b :: rest).filter (present us) = b :: rest.filter (present us) := by
          simp [List.filter_cons, hpb]
        rw [hfil, leftJoin_cons, leftJoin_cons, groupSum_append, groupSum_append, ih]

/-- The whole grouped frame is unchanged when absent-user bets are
removed before the join. -/
lemma grouped_drop (us : List User) (bs : List Bet) :
    (groupCodes (leftJoin (bs.filter (present us)) us)).map
        (fun c => (c, groupSum (leftJoin (bs.filter (present us)) us) c))
      = (groupCodes (leftJoin bs us)).map
        (fun c => (c, groupSum (leftJoin bs us) c)) := by
  have hcodes : groupCodes (leftJoin (bs.filter (present us)) us)
      = groupCodes (leftJoin bs us) := by
    unfold groupCodes
    rw [filterMap_leftJoin_drop]
  have hsum : (fun c => (c, groupSum (leftJoin (bs.filter (present us)) us) c))
      = fun c => (c, groupSum (leftJoin bs us) c) := by
    funext c
    rw [groupSum_leftJoin_drop]
  rw [hcodes, hsum]

/-- `grouped_drop` after the segment filter, in the exact shape the
`ggr_grouped` body produces. -/
lemma grouped_filter_drop (us : List User) (bs : List Bet) (R : Finset Nat) :
    (groupCodes (leftJoin ((bs.filter (present us)).filter (fun b => b.user_id ∈ R)) us)).map
        (fun c => (c, groupSum (leftJoin ((bs.filter (present us)).filter
          (fun b => b.user_id ∈ R)) us) c))
      = (groupCodes (leftJoin (bs.filter (fun b => b.user_id ∈ R)) us)).map
        (fun c => (c, groupSum (leftJoin (bs.filter (fun b => b.user_id ∈ R)) us) c)) := by
  have hcomm := List.filter_comm (fun b => decide (b.user_id ∈ R)) (present us) bs
  simp only [hcomm]
  exact grouped_drop us (bs.filter (fun b => b.user_id ∈ R))

/-- Claim C1 (corrected): after the left join a bet from a user absent
in `users` does get a null country, and no error is raised — but the
`groupby` on country silently drops the null key (pandas default),
so such bets are excluded from the returned mapping rather than
grouped under a null/missing key: removing them from the bets table
leaves `ggr_by_country` unchanged. -/
theorem ggr_absent_users_dropped (t : Tables) (lookup : String → Option String)
    (device : String) :
    (∀ b, present t.users b = false → joinRow t.users b = [(b, none)]) ∧
    ggr_by_country { t with bets := t.bets.filter (present t.users) } lookup device
      = ggr_by_country t lookup device := by
  constructor
  · exact fun b h => joinRow_absent t.users b h
  · have hseg : ∀ dv, get_device_users { t with bets := t.bets.filter (present t.users) } dv
        = get_device_users t dv := fun dv => get_device_users_congr _ t rfl dv
    unfold ggr_by_country ggr_grouped
    simp only [hseg]
    rw [grouped_filter_drop]

theorem ggr_absent_users_dropped_witness :
    joinRow Tex.users ⟨1, 5, 100⟩ = [(⟨1, 5, 100⟩, none)] ∧
    ggr_by_country { Tex with bets := Tex.bets.filter (present Tex.users) } lkNone "mobile"
      = ggr_by_country Tex lkNone "mobile" :=
  ⟨(ggr_absent_users_dropped Tex lkNone "mobile").1 ⟨1, 5, 100⟩ (by decide),
    (ggr_absent_users_dropped Tex lkNone "mobile").2⟩

theorem ggr_null_key_counterexample :
    (⟨1, 5, 100⟩ : Bet) ∈ Tex.bets ∧
    (∀ u ∈ Tex.users, u.user_id ≠ 1) ∧
    (1 : Nat) ∈ get_device_users Tex "mobile" ∧
    ggr_by_country Tex lkNone "mobile" = [] :=
  ⟨by decide, by decide, by decide, by decide⟩

theorem funnel_column_dependence_witness :
    (Tex.sessions = Tex9.sessions ∧
      Tex.transactions.map transProj = Tex9.transactions.map transProj ∧
      Tex.bets.map Bet.user_id = Tex9.bets.map Bet.user_id) ∧
    calculate_funnel Tex "mobile" = calculate_funnel Tex9 "mobile" ∧
    1 ∈ bet_users Tex "mobile" :=
  ⟨⟨rfl, rfl, rfl⟩,
    (funnel_column_dependence Tex Tex9 "mobile" rfl rfl rfl).1,
    (funnel_column_dependence Tex Tex9 "mobile" rfl rfl rfl).2 1 (by decide)
      ⟨⟨1, "deposit", 9, 50⟩, by decide, rfl, rfl⟩
      ⟨⟨1, 5, 100⟩, by decide, rfl⟩⟩

end App
